import Mathlib

/-!
Shallow embedding of the astro-r2 image-hosting service.

The embedding covers:
  - src/lib/auth.ts            (isAuthenticated, requireAuth)
  - src/pages/api/auth/*.ts    (login, logout, verify handlers)
  - src/lib/r2.ts              (R2Service: generateFileName, processImage,
                                uploadImage, deleteImage, listImages)
  - src/pages/api/upload.ts    (POST handler)
  - src/pages/api/images.ts    (GET and DELETE handlers)

External dependencies are modelled as explicit parameters or small total
functions: the sharp WebP encoder is a parameter of type
List Nat -> Int -> Option (List Nat) (None models a raised encoding error,
caught by the try/catch in processImage); crypto randomness and Date.now()
are parameters; the S3/R2 store is a list of objects, and a ListObjectsV2
call returns the first MaxKeys objects whose key matches the requested
key-prefix filter.  JavaScript strings are Lean String, byte buffers are
List Nat, and a JavaScript number that may be NaN is Option Int (none =
NaN); fields that may be absent or null are Option.
-/

namespace AstroR2

/-- JavaScript string truthiness for the idiom `x || d` applied to a value
that is a string, null/undefined (none) or the mime-types false result:
the default is used when the value is absent or the empty string. -/
def jsOrStr (x : Option String) (d : String) : String :=
  match x with
  | some s => if s = "" then d else s
  | none => d

/-- Digit-prefix value of a character list: the numeric value of the maximal
leading run of decimal digits, or none when there is no leading digit. -/
def digitsVal (cs : List Char) : Option Nat :=
  let ds := cs.takeWhile Char.isDigit
  if ds = [] then none
  else some (ds.foldl (fun a c => a * 10 + (c.toNat - 48)) 0)

/-- Model of the JavaScript parseInt builtin on the fragment this program
uses: an optional sign followed by decimal digits; none models NaN.
(Leading-whitespace skipping and the 0x radix are not exercised by any
caller in this repository and are omitted.) -/
def jsParseInt (s : String) : Option Int :=
  match s.data with
  | '-' :: rest => (digitsVal rest).map (fun n => -(n : Int))
  | '+' :: rest => (digitsVal rest).map (fun n => (n : Int))
  | cs => (digitsVal cs).map (fun n => (n : Int))

/-- JavaScript comparison a > b where b may be NaN (none): every comparison
against NaN is false. -/
def jsNumGt (a : Int) (b : Option Int) : Bool :=
  match b with
  | some b0 => a > b0
  | none => false

/-- JavaScript `q || 80` on the quality option: q is absent (none),
NaN (some none) or a number (some (some n)); 0 and NaN are falsy. -/
def jsOrQuality (q : Option (Option Int)) : Int :=
  match q with
  | some (some n) => if n = 0 then 80 else n
  | _ => 80

/-- String prefix test, the model of the JavaScript String.startsWith. -/
def strStartsWith (s p : String) : Bool :=
  List.isPrefixOf p.data s.data

/-- Model of the mime-types extension lookup on the MIME types reachable in
this program; none models the false return of the library. -/
def mimeExtension (mime : String) : Option String :=
  if mime = "image/jpeg" then some "jpeg"
  else if mime = "image/png" then some "png"
  else if mime = "image/gif" then some "gif"
  else if mime = "image/webp" then some "webp"
  else if mime = "image/svg+xml" then some "svg"
  else if mime = "application/octet-stream" then some "bin"
  else none

/-- Splits a character list at its last dot: returns (before, after) where
the dot itself is dropped, or none when the list has no dot. -/
def lastDotParts (cs : List Char) : Option (List Char × List Char) :=
  match cs with
  | [] => none
  | c :: rest =>
    match lastDotParts rest with
    | some (p, s) => some (c :: p, s)
    | none => if c = '.' then some ([], rest) else none

/-- Extension lookup of the mime-types library by file path, restricted to
the extensions reachable in this program (case analysis on the characters
after the last dot of the path); none models the false return. -/
def mimeLookup (path : String) : Option String :=
  match lastDotParts path.data with
  | none => none
  | some (_, s) =>
    let ext := String.mk s
    if ext = "jpeg" then some "image/jpeg"
    else if ext = "jpg" then some "image/jpeg"
    else if ext = "png" then some "image/png"
    else if ext = "gif" then some "image/gif"
    else if ext = "webp" then some "image/webp"
    else if ext = "svg" then some "image/svg+xml"
    else none

/-- Model of `originalName.replace(/\.[^/.]+$/, "." + ext)` from
R2Service.uploadImage: when the name ends in a dot followed by one or more
characters none of which is a dot or a slash, that suffix is replaced by
the new extension; otherwise the name is returned unchanged. -/
def replaceExtension (name ext : String) : String :=
  match lastDotParts name.data with
  | some (p, s) =>
    if s ≠ [] ∧ '.' ∉ s ∧ '/' ∉ s then String.mk p ++ "." ++ ext
    else name
  | none => name

/-- Character sanitizer of `replace(/[^a-zA-Z0-9.-]/g, "_")` in
R2Service.generateFileName. -/
def sanitizeChar (c : Char) : Char :=
  if c.isAlpha || c.isDigit || c == '.' || c == '-' then c else '_'

/-- R2Config from src/lib/r2.ts. -/
structure R2Config where
  accountId : String
  accessKeyId : String
  secretAccessKey : String
  bucketName : String
  endpoint : String
  publicUrl : String
deriving DecidableEq

/-- UploadOptions from src/lib/r2.ts; quality is a JavaScript number field
that may be absent (none), NaN (some none) or a number (some (some n)). -/
structure UploadOptions where
  useHashName : Bool
  compressToWebp : Bool
  quality : Option (Option Int)
deriving DecidableEq

/-- ImageInfo from src/lib/r2.ts; uploadedAt is a Date as a timestamp. -/
structure ImageInfo where
  key : String
  url : String
  size : Nat
  mimeType : String
  uploadedAt : Nat
deriving DecidableEq

/-- Result of R2Service.processImage. -/
structure ProcessedImage where
  buffer : List Nat
  mimeType : String
  ext : String
deriving DecidableEq

/-- R2Service.generateFileName.  Randomness (crypto.randomBytes hex string)
and Date.now() are the randHex and timestampMs parameters. -/
def generateFileName (originalName : String) (useHash : Bool)
    (randHex : String) (timestampMs : Nat) : String :=
  let ext := jsOrStr ((originalName.splitOn ".").getLast?) ""
  if useHash then
    randHex ++ "." ++ ext
  else
    let cleanName := String.mk (originalName.data.map sanitizeChar)
    toString timestampMs ++ "_" ++ cleanName

/-- R2Service.processImage.  The sharp WebP pipeline is the encode
parameter; encode returning none models a raised encoding error, which the
try/catch turns into the original-format fallback. -/
def processImage (encode : List Nat → Int → Option (List Nat))
    (buffer : List Nat) (mimeType : String) (options : UploadOptions) :
    ProcessedImage :=
  if !options.compressToWebp || !strStartsWith mimeType "image/" then
    ⟨buffer, mimeType, jsOrStr (mimeExtension mimeType) "bin"⟩
  else
    match encode buffer (jsOrQuality options.quality) with
    | some webpBuffer => ⟨webpBuffer, "image/webp", "webp"⟩
    | none => ⟨buffer, mimeType, jsOrStr (mimeExtension mimeType) "bin"⟩

/-- A browser File as the upload handler sees it. -/
structure JSFile where
  name : String
  type : String
  size : Nat
  bytes : List Nat
deriving DecidableEq

/-- A PutObjectCommand issued to the store. -/
structure PutCommand where
  bucket : String
  key : String
  body : List Nat
  contentType : String
  cacheControl : String
deriving DecidableEq

/-- R2Service.uploadImage on the File branch (the only branch the upload
endpoint exercises): buffer, MIME type and name come from the file; returns
the ImageInfo plus the PutObjectCommand sent to the store. -/
def uploadImage (config : R2Config)
    (encode : List Nat → Int → Option (List Nat))
    (randHex : String) (timestampMs now : Nat)
    (file : JSFile) (options : UploadOptions) : ImageInfo × PutCommand :=
  let buffer := file.bytes
  let mimeType := file.type
  let originalName := file.name
  let processed := processImage encode buffer mimeType options
  let fileName := generateFileName (replaceExtension originalName processed.ext)
      options.useHashName randHex timestampMs
  let key := fileName
  (⟨key, config.publicUrl ++ "/" ++ key, processed.buffer.length,
      processed.mimeType, now⟩,
   ⟨config.bucketName, key, processed.buffer, processed.mimeType,
      "public, max-age=31536000"⟩)

/-- isAuthenticated from src/lib/auth.ts: the auth-token cookie (none when
absent) must exist and have a non-empty value. -/
def isAuthenticated (cookie : Option String) : Bool :=
  match cookie with
  | some v => v != ""
  | none => false

/-- requireAuth from src/lib/auth.ts: some 401 is the error response. -/
def requireAuth (cookie : Option String) : Option Nat :=
  if !isAuthenticated cookie then some 401 else none

/-- GET /api/auth/verify: returns (HTTP status, authenticated flag of the
JSON body). -/
def verifyGET (cookie : Option String) : Nat × Bool :=
  let authenticated := isAuthenticated cookie
  (if authenticated then 200 else 401, authenticated)

/-- Outcome of POST /api/auth/login. -/
inductive LoginResult where
  | configError
  | invalidPassword
  | success
deriving DecidableEq

/-- POST /api/auth/login: adminPasswordEnv is the ADMIN_PASSWORD
environment value (none when unset; the empty string is falsy and also a
configuration error), token is the generated random hex token; returns the
outcome and the auth-token cookie state after the request. -/
def loginPOST (adminPasswordEnv : Option String) (token : String)
    (password : String) (cookie : Option String) :
    LoginResult × Option String :=
  match adminPasswordEnv with
  | none => (.configError, cookie)
  | some ap =>
    if ap = "" then (.configError, cookie)
    else if password ≠ ap then (.invalidPassword, cookie)
    else (.success, some token)

/-- POST /api/auth/logout: deletes the auth-token cookie; returns the HTTP
status and the cookie state after the request. -/
def logoutPOST (_cookie : Option String) : Nat × Option String :=
  (200, none)

/-- A request to POST /api/upload: the auth-token cookie and the form
fields (each none when absent from the form). -/
structure UploadRequest where
  cookie : Option String
  file : Option JSFile
  useHashNameField : Option String
  enableWebpField : Option String
  qualityField : Option String
deriving DecidableEq

/-- The options object built by the upload handler from the form fields. -/
def uploadOptionsOf (req : UploadRequest) : UploadOptions :=
  { useHashName := req.useHashNameField == some "true"
    compressToWebp := req.enableWebpField == some "true"
    quality := some (jsParseInt (jsOrStr req.qualityField "80")) }

/-- Outcome of POST /api/upload (authError is 401, the next three are 400,
success is 200 with the ImageInfo body). -/
inductive UploadResult where
  | authError
  | noFile
  | sizeError (maxSize : Option Int)
  | typeError
  | success (info : ImageInfo)
deriving DecidableEq

/-- The MIME allow-list of the upload handler. -/
def allowedTypes : List String :=
  ["image/jpeg", "image/png", "image/gif", "image/webp", "image/svg+xml"]

/-- POST /api/upload: maxFileSizeEnv is the MAX_FILE_SIZE environment value
(none when unset); returns the response outcome and the list of
PutObjectCommands sent to the store during the request. -/
def uploadPOST (config : R2Config) (maxFileSizeEnv : Option String)
    (encode : List Nat → Int → Option (List Nat))
    (randHex : String) (timestampMs now : Nat)
    (req : UploadRequest) : UploadResult × List PutCommand :=
  match requireAuth req.cookie with
  | some _ => (.authError, [])
  | none =>
    match req.file with
    | none => (.noFile, [])
    | some file =>
      let maxSize := jsParseInt (jsOrStr maxFileSizeEnv "10485760")
      if jsNumGt (file.size : Int) maxSize then
        (.sizeError maxSize, [])
      else if !(allowedTypes.contains file.type) then
        (.typeError, [])
      else
        let options := uploadOptionsOf req
        let result := uploadImage config encode randHex timestampMs now file options
        (.success result.1, [result.2])

/-- An object of the store listing (the fields of a ListObjectsV2 Contents
entry that this program reads); lastModified is a Date as a timestamp. -/
structure S3Object where
  key : String
  size : Nat
  lastModified : Nat
deriving DecidableEq

/-- Store contract of ListObjectsV2: the bucket listing filtered by the
requested key-prefix string, truncated to the first MaxKeys entries. -/
def listObjectsV2 (bucket : List S3Object) (pfx : String) (maxKeys : Nat) :
    List S3Object :=
  (bucket.filter (fun o => strStartsWith o.key pfx)).take maxKeys

/-- The mapping from a listing entry to an ImageInfo in
R2Service.listImages. -/
def toImageInfo (config : R2Config) (o : S3Object) : ImageInfo :=
  ⟨o.key, config.publicUrl ++ "/" ++ o.key, o.size,
   jsOrStr (mimeLookup o.key) "application/octet-stream", o.lastModified⟩

/-- The ListObjectsV2Command parameters issued by listImages. -/
structure ListCommand where
  bucket : String
  pfx : String
  maxKeys : Nat
deriving DecidableEq

/-- JavaScript Array.slice(start, stop) for non-negative start and stop. -/
def jsSlice {α : Type} (l : List α) (start stop : Nat) : List α :=
  (l.drop start).take (stop - start)

/-- R2Service.listImages: fetches min(maxKeys + offset, 1000) objects in
one ListObjectsV2 call, maps them to ImageInfo, and slices
[offset, offset + maxKeys); returns the result together with the issued
list command. -/
def listImages (config : R2Config) (bucket : List S3Object)
    (pfx : String) (maxKeys : Nat) (offset : Nat) :
    List ImageInfo × ListCommand :=
  let fetchLimit := maxKeys + offset
  let contents := listObjectsV2 bucket pfx (min fetchLimit 1000)
  let allImages := contents.map (toImageInfo config)
  (jsSlice allImages offset (offset + maxKeys),
   ⟨config.bucketName, pfx, min fetchLimit 1000⟩)

/-- A request to GET /api/images: the auth-token cookie and the query
string fields (each none when absent).  The handler destructures only the
url; the source reads only the limit and prefix parameters. -/
structure ImagesQuery where
  cookie : Option String
  limitField : Option String
  offsetField : Option String
  pfxField : Option String
deriving DecidableEq

/-- Outcome of GET /api/images: ok is the 200 body data, err is the
catch-all 500. -/
inductive ImagesGETResult where
  | ok (data : List ImageInfo)
  | err
deriving DecidableEq

/-- GET /api/images: parses limit (default string 50) and prefix (default
empty) from the query and calls listImages with offset 0; the offsetField
is never read, matching the source.  A limit that parses to NaN or a
negative number makes the store call fail and surfaces as the catch-all
500 (err); no claim exercises that branch. -/
def imagesGET (config : R2Config) (bucket : List S3Object)
    (q : ImagesQuery) : ImagesGETResult × List ListCommand :=
  match jsParseInt (jsOrStr q.limitField "50") with
  | none => (.err, [])
  | some limit =>
    if limit < 0 then (.err, [])
    else
      let pfx := jsOrStr q.pfxField ""
      let result := listImages config bucket pfx limit.toNat 0
      (.ok result.1, [result.2])

/-- A request to DELETE /api/images: the auth-token cookie and the key of
the JSON body (none when absent or null). -/
structure DeleteRequest where
  cookie : Option String
  key : Option String
deriving DecidableEq

/-- Outcome of DELETE /api/images. -/
inductive DeleteResult where
  | noKey
  | ok
deriving DecidableEq

/-- A DeleteObjectCommand issued to the store. -/
structure DeleteCommand where
  bucket : String
  key : String
deriving DecidableEq

/-- DELETE /api/images: a missing, null or empty key is falsy and yields
the 400 noKey response; otherwise one delete command is issued. -/
def imagesDELETE (config : R2Config) (req : DeleteRequest) :
    DeleteResult × List DeleteCommand :=
  match req.key with
  | none => (.noKey, [])
  | some k =>
    if k = "" then (.noKey, [])
    else (.ok, [⟨config.bucketName, k⟩])

/-- A concrete configuration used by the closed witness statements. -/
def cfgW : R2Config := ⟨"acc", "ak", "sk", "bkt", "ep", "https://pub"⟩

/-- The sanitized filename as the spec words it, for comparison with the
source-side generateFileName: every character outside [A-Za-z0-9.-] is
replaced by an underscore. -/
def specSanitize (s : String) : String :=
  String.mk (s.data.map (fun c =>
    if ('A' ≤ c ∧ c ≤ 'Z') ∨ ('a' ≤ c ∧ c ≤ 'z') ∨ ('0' ≤ c ∧ c ≤ '9')
        ∨ c = '.' ∨ c = '-'
    then c else '_'))

/-- A concrete store listing with five objects. -/
def bucket5 : List S3Object :=
  [⟨"k0", 0, 0⟩, ⟨"k1", 1, 0⟩, ⟨"k2", 2, 0⟩, ⟨"k3", 3, 0⟩, ⟨"k4", 4, 0⟩]

/-- A concrete store listing with 1001 objects, one more than the
single-call page cap of the store. -/
def bucket1001 : List S3Object := List.replicate 1001 ⟨"k", 1, 0⟩

/-! Helper lemmas shared by the claim theorems. -/

theorem strStartsWith_empty (s : String) : strStartsWith s "" = true := by
  have h0 : "".data = ([] : List Char) := by decide
  unfold strStartsWith
  rw [h0]
  exact List.isPrefixOf_nil_left

theorem sanitizeChar_eq_spec (c : Char) :
    sanitizeChar c =
      if ('A' ≤ c ∧ c ≤ 'Z') ∨ ('a' ≤ c ∧ c ≤ 'z') ∨ ('0' ≤ c ∧ c ≤ '9')
          ∨ c = '.' ∨ c = '-'
      then c else '_' := by
  have hle : ∀ a b : Char, (a ≤ b) ↔ (a.val ≤ b.val) := fun _ _ => Iff.rfl
  have hiff : (c.isAlpha || c.isDigit || c == '.' || c == '-') = true ↔
      (('A' ≤ c ∧ c ≤ 'Z') ∨ ('a' ≤ c ∧ c ≤ 'z') ∨ ('0' ≤ c ∧ c ≤ '9')
        ∨ c = '.' ∨ c = '-') := by
    simp [Char.isAlpha, Char.isUpper, Char.isLower, Char.isDigit,
      Bool.or_eq_true, Bool.and_eq_true, decide_eq_true_eq, beq_iff_eq,
      ge_iff_le, hle]
    tauto
  unfold sanitizeChar
  rw [if_congr hiff rfl rfl]

theorem listImages_zero_offset (config : R2Config) (bucket : List S3Object)
    (pfx : String) (l : Nat) :
    (listImages config bucket pfx l 0).1
      = ((bucket.filter (fun o => strStartsWith o.key pfx)).take (min l 1000)).map
          (toImageInfo config) := by
  unfold listImages listObjectsV2 jsSlice
  simp only [Nat.add_zero, Nat.zero_add, Nat.sub_zero, List.drop_zero]
  rw [← List.map_take, List.take_take]
  have hm : min l (min l 1000) = min l 1000 := by omega
  rw [hm]

theorem processImage_encode_none
    (b : List Nat) (m : String) (opts : UploadOptions)
    (enc enc2 : List Nat → Int → Option (List Nat))
    (h : enc b (jsOrQuality opts.quality) = none) :
    processImage enc b m opts
      = processImage enc2 b m ⟨opts.useHashName, false, opts.quality⟩ := by
  obtain ⟨u, cw, q⟩ := opts
  cases cw with
  | false => simp [processImage]
  | true =>
    cases hs : strStartsWith m "image/"
    · simp [processImage, hs]
    · simp [processImage, hs, h]

/-! The claim theorems. -/

/-- Claim C1: a request is authenticated iff the auth-token cookie exists
with a non-empty value; verify returns 200 with authenticated = true
exactly then and 401 with authenticated = false otherwise, including when
no cookie is present and after logout clears it; the accepted value is
never compared to the token issued at login (any two non-empty values
verify identically, and the token issued by a successful login verifies). -/
theorem auth_verify_presence_only :
    (∀ c : Option String,
        verifyGET c = (200, true) ↔ ∃ v, c = some v ∧ v ≠ "")
    ∧ (∀ c : Option String,
        verifyGET c = (200, true) ∨ verifyGET c = (401, false))
    ∧ verifyGET none = (401, false)
    ∧ (∀ c : Option String, verifyGET (logoutPOST c).2 = (401, false))
    ∧ (∀ v1 v2 : String, v1 ≠ "" → v2 ≠ "" →
        verifyGET (some v1) = verifyGET (some v2))
    ∧ (∀ (ap tok : String) (c : Option String), ap ≠ "" → tok ≠ "" →
        verifyGET (loginPOST (some ap) tok ap c).2 = (200, true)) := by
  refine ⟨?_, ?_, rfl, ?_, ?_, ?_⟩
  · intro c
    cases c with
    | none => simp [verifyGET, isAuthenticated]
    | some v =>
      by_cases hv : v = "" <;> simp [verifyGET, isAuthenticated, hv]
  · intro c
    cases c with
    | none => simp [verifyGET, isAuthenticated]
    | some v =>
      by_cases hv : v = "" <;> simp [verifyGET, isAuthenticated, hv]
  · intro c
    simp [verifyGET, isAuthenticated, logoutPOST]
  · intro v1 v2 h1 h2
    have e1 : (v1 != "") = true := bne_iff_ne.mpr h1
    have e2 : (v2 != "") = true := bne_iff_ne.mpr h2
    simp [verifyGET, isAuthenticated, e1, e2]
  · intro ap tok c hap htok
    simp [loginPOST, hap, verifyGET, isAuthenticated, htok]

/-- Witness for claim C1 at concrete inputs. -/
theorem auth_verify_presence_only_witness :
    verifyGET (some "a") = verifyGET (some "b")
    ∧ verifyGET (loginPOST (some "pw") "tok" "pw" none).2 = (200, true) :=
  ⟨auth_verify_presence_only.2.2.2.2.1 "a" "b" (by decide) (by decide),
   auth_verify_presence_only.2.2.2.2.2 "pw" "tok" none (by decide) (by decide)⟩

/-- Claim C2: the upload endpoint rejects a request with a missing or
empty session cookie with the 401 authorization error and issues no store
call, while the images GET and DELETE handlers never read the cookie: two
requests identical except for cookie presence or value produce identical
store calls and responses. -/
theorem upload_gated_management_ungated :
    (∀ (config : R2Config) (env : Option String)
        (encode : List Nat → Int → Option (List Nat))
        (randHex : String) (ts now : Nat) (req : UploadRequest),
        (req.cookie = none ∨ req.cookie = some "") →
        uploadPOST config env encode randHex ts now req = (.authError, []))
    ∧ (∀ (config : R2Config) (bucket : List S3Object)
        (c1 c2 lf off pf : Option String),
        imagesGET config bucket ⟨c1, lf, off, pf⟩
          = imagesGET config bucket ⟨c2, lf, off, pf⟩)
    ∧ (∀ (config : R2Config) (c1 c2 : Option String) (k : Option String),
        imagesDELETE config ⟨c1, k⟩ = imagesDELETE config ⟨c2, k⟩) := by
  refine ⟨?_, fun _ _ _ _ _ _ _ => rfl, fun _ _ _ _ => rfl⟩
  intro config env encode randHex ts now req h
  obtain ⟨c, f, u, e, q⟩ := req
  rcases h with h | h <;> simp at h <;> subst h <;>
    simp [uploadPOST, requireAuth, isAuthenticated]

/-- Witness for claim C2 at a concrete unauthenticated request. -/
theorem upload_gated_management_ungated_witness :
    uploadPOST cfgW none (fun _ _ => none) "r" 0 0 ⟨none, none, none, none, none⟩
      = (.authError, []) :=
  upload_gated_management_ungated.1 cfgW none (fun _ _ => none) "r" 0 0
    ⟨none, none, none, none, none⟩ (Or.inl rfl)

/-- Claim C3, counterexample: with the declared MIME type image/svg+xml
and the compress flag set, a succeeding encoder changes the bytes, so the
normalizer output does not equal its input; the SVG format is not excluded
from re-encoding. -/
theorem svg_not_excluded_cx :
    (processImage (fun _ _ => some [9]) [1, 2, 3] "image/svg+xml"
        ⟨false, true, none⟩).buffer ≠ [1, 2, 3] := by decide

/-- Claim C3 as amended: for an SVG input with the compress flag set, the
normalizer attempts WebP re-encoding exactly like any other image MIME
type; the input is returned unchanged (with MIME image/svg+xml and
extension svg) only when the encoder fails. -/
theorem svg_compression_attempted :
    ∀ (b : List Nat) (opts : UploadOptions)
      (enc : List Nat → Int → Option (List Nat)),
      opts.compressToWebp = true →
      processImage enc b "image/svg+xml" opts
        = match enc b (jsOrQuality opts.quality) with
          | some w => ⟨w, "image/webp", "webp"⟩
          | none => ⟨b, "image/svg+xml", "svg"⟩ := by
  intro b opts enc h
  obtain ⟨u, cw, q⟩ := opts
  simp at h
  subst h
  have hs : strStartsWith "image/svg+xml" "image/" = true := by decide
  cases henc : enc b (jsOrQuality q) <;>
    simp [processImage, hs, henc, jsOrStr, mimeExtension]

/-- Witness for the amended claim C3 at a concrete failing encoder. -/
theorem svg_compression_attempted_witness :
    processImage (fun _ _ => none) [1] "image/svg+xml" ⟨false, true, none⟩
      = ⟨[1], "image/svg+xml", "svg"⟩ := by
  have h := svg_compression_attempted [1] ⟨false, true, none⟩ (fun _ _ => none) rfl
  exact h

/-- Claim C4: the images GET handler never reads the offset query
parameter, so any two requests differing only in it produce identical
results, and a request with limit 1 and offset 1 over a two-object store
returns the first object (the slice starting at 0), not the second. -/
theorem images_get_offset_ignored :
    (∀ (config : R2Config) (bucket : List S3Object)
        (c lf off1 off2 pf : Option String),
        imagesGET config bucket ⟨c, lf, off1, pf⟩
          = imagesGET config bucket ⟨c, lf, off2, pf⟩)
    ∧ (imagesGET cfgW [⟨"k0", 1, 0⟩, ⟨"k1", 2, 0⟩]
          ⟨none, some "1", some "1", none⟩).1
        = .ok [toImageInfo cfgW ⟨"k0", 1, 0⟩] :=
  ⟨fun _ _ _ _ _ _ _ => rfl, by decide⟩

/-- Claim C5: an authenticated upload request with a file whose byte size
strictly exceeds the configured maximum gets the 400 size-limit error and
no put command is issued; with the MAX_FILE_SIZE environment value unset
the maximum defaults to 10485760. -/
theorem upload_size_limit :
    (∀ (config : R2Config) (env : Option String)
        (encode : List Nat → Int → Option (List Nat))
        (randHex : String) (ts now : Nat) (req : UploadRequest) (f : JSFile),
        isAuthenticated req.cookie = true →
        req.file = some f →
        jsNumGt (f.size : Int) (jsParseInt (jsOrStr env "10485760")) = true →
        uploadPOST config env encode randHex ts now req
          = (.sizeError (jsParseInt (jsOrStr env "10485760")), []))
    ∧ jsParseInt (jsOrStr none "10485760") = some 10485760 := by
  refine ⟨?_, by decide⟩
  intro config env encode randHex ts now req f hauth hfile hsize
  obtain ⟨c, fl, u, e, q⟩ := req
  simp at hfile
  subst hfile
  simp [uploadPOST, requireAuth, hauth, hsize]

/-- Witness for claim C5: a 10485761-byte file against the default
maximum. -/
theorem upload_size_limit_witness :
    uploadPOST cfgW none (fun _ _ => none) "r" 0 0
      ⟨some "tok", some ⟨"a.png", "image/png", 10485761, [1]⟩, none, none, none⟩
      = (.sizeError (some 10485760), []) := by
  have h := upload_size_limit.1 cfgW none (fun _ _ => none) "r" 0 0
    ⟨some "tok", some ⟨"a.png", "image/png", 10485761, [1]⟩, none, none, none⟩
    ⟨"a.png", "image/png", 10485761, [1]⟩ (by decide) rfl (by decide)
  exact h

/-- Claim C6: an authenticated upload request that passes the size check
but declares a MIME type outside the five-member allow-list gets the 400
unsupported-type error and no put command is issued. -/
theorem upload_type_allowlist :
    ∀ (config : R2Config) (env : Option String)
      (encode : List Nat → Int → Option (List Nat))
      (randHex : String) (ts now : Nat) (req : UploadRequest) (f : JSFile),
      isAuthenticated req.cookie = true →
      req.file = some f →
      jsNumGt (f.size : Int) (jsParseInt (jsOrStr env "10485760")) = false →
      f.type ∉ allowedTypes →
      uploadPOST config env encode randHex ts now req = (.typeError, []) := by
  intro config env encode randHex ts now req f hauth hfile hsize htype
  obtain ⟨c, fl, u, e, q⟩ := req
  simp at hfile
  subst hfile
  simp [uploadPOST, requireAuth, hauth, hsize, htype]

/-- Witness for claim C6 at a text/plain upload. -/
theorem upload_type_allowlist_witness :
    uploadPOST cfgW none (fun _ _ => none) "r" 0 0
      ⟨some "tok", some ⟨"a.txt", "text/plain", 1, [1]⟩, none, none, none⟩
      = (.typeError, []) := by
  have h := upload_type_allowlist cfgW none (fun _ _ => none) "r" 0 0
    ⟨some "tok", some ⟨"a.txt", "text/plain", 1, [1]⟩, none, none, none⟩
    ⟨"a.txt", "text/plain", 1, [1]⟩ (by decide) rfl (by decide) (by decide)
  exact h

/-- Claim C7: when the encoder fails on the bytes the normalizer would
hand it, processImage returns the original bytes, MIME type and derived
extension, and uploadImage produces exactly the result it would produce
with compression disabled — the failure never surfaces to the caller. -/
theorem encode_failure_silent_fallback :
    (∀ (b : List Nat) (m : String) (opts : UploadOptions)
        (enc enc2 : List Nat → Int → Option (List Nat)),
        enc b (jsOrQuality opts.quality) = none →
        processImage enc b m opts
          = processImage enc2 b m ⟨opts.useHashName, false, opts.quality⟩)
    ∧ (∀ (config : R2Config) (randHex : String) (ts now : Nat)
        (file : JSFile) (opts : UploadOptions)
        (enc enc2 : List Nat → Int → Option (List Nat)),
        enc file.bytes (jsOrQuality opts.quality) = none →
        uploadImage config enc randHex ts now file opts
          = uploadImage config enc2 randHex ts now file
              ⟨opts.useHashName, false, opts.quality⟩) := by
  refine ⟨fun b m opts enc enc2 h => processImage_encode_none b m opts enc enc2 h, ?_⟩
  intro config randHex ts now file opts enc enc2 h
  simp only [uploadImage]
  rw [processImage_encode_none file.bytes file.type opts enc enc2 h]

/-- Witness for claim C7 at a concrete always-failing encoder. -/
theorem encode_failure_silent_fallback_witness :
    processImage (fun _ _ => none) [1] "image/png" ⟨false, true, none⟩
      = processImage (fun _ _ => some [2]) [1] "image/png" ⟨false, false, none⟩
    ∧ uploadImage cfgW (fun _ _ => none) "r" 1 2 ⟨"a.png", "image/png", 1, [1]⟩
        ⟨false, true, none⟩
      = uploadImage cfgW (fun _ _ => some [2]) "r" 1 2 ⟨"a.png", "image/png", 1, [1]⟩
        ⟨false, false, none⟩ :=
  ⟨encode_failure_silent_fallback.1 [1] "image/png" ⟨false, true, none⟩
      (fun _ _ => none) (fun _ _ => some [2]) rfl,
   encode_failure_silent_fallback.2 cfgW "r" 1 2 ⟨"a.png", "image/png", 1, [1]⟩
      ⟨false, true, none⟩ (fun _ _ => none) (fun _ _ => some [2]) rfl⟩

/-- Claim C8: in default naming mode the output is the millisecond
timestamp, an underscore, and the filename with every character outside
[A-Za-z0-9.-] replaced by an underscore; in particular the filename with a
space maps to T_a_b.png for every timestamp T. -/
theorem naming_default_mode :
    (∀ (name randHex : String) (t : Nat),
        generateFileName name false randHex t
          = toString t ++ "_" ++ specSanitize name)
    ∧ (∀ (randHex : String) (t : Nat),
        generateFileName "a b.png" false randHex t
          = toString t ++ "_a_b.png") := by
  have h1 : ∀ (name randHex : String) (t : Nat),
      generateFileName name false randHex t
        = toString t ++ "_" ++ specSanitize name := by
    intro name randHex t
    unfold generateFileName specSanitize
    simp only [Bool.false_eq_true, if_false]
    have : name.data.map sanitizeChar
        = name.data.map (fun c =>
            if ('A' ≤ c ∧ c ≤ 'Z') ∨ ('a' ≤ c ∧ c ≤ 'z') ∨ ('0' ≤ c ∧ c ≤ '9')
                ∨ c = '.' ∨ c = '-'
            then c else '_') :=
      List.map_congr_left (fun c _ => sanitizeChar_eq_spec c)
    rw [this]
  refine ⟨h1, ?_⟩
  intro randHex t
  rw [h1, show specSanitize "a b.png" = "a_b.png" from rfl, String.append_assoc]
  rfl

/-- Claim C9, counterexample: with a 1001-object listing and limit 1001 at
offset 0, listImages returns 1000 elements, not min(limit, length) = 1001:
the single-call page cap bounds the result. -/
theorem listImages_cap_cx :
    ((listImages cfgW bucket1001 "" 1001 0).1).length
        ≠ min 1001 bucket1001.length
    ∧ bucket1001.length = 1001 := by
  constructor
  · rw [listImages_zero_offset]
    have hf : bucket1001.filter (fun o => strStartsWith o.key "") = bucket1001 :=
      List.filter_eq_self.mpr (fun a _ => strStartsWith_empty a.key)
    rw [hf]
    simp only [bucket1001, List.length_map, List.length_take,
      List.length_replicate]
    omega
  · simp only [bucket1001, List.length_replicate]

/-- Claim C9 as amended: at offset 0 and limit L, listImages returns the
first min(L, 1000) elements of the store listing in store order (so the
first min(L, 1000, length) elements); in particular limit 2 over a
five-object store yields exactly the two-element prefix. -/
theorem listImages_zero_offset_slice :
    (∀ (config : R2Config) (bucket : List S3Object) (l : Nat),
        (listImages config bucket "" l 0).1
          = (bucket.take (min l 1000)).map (toImageInfo config))
    ∧ (listImages cfgW bucket5 "" 2 0).1
        = (bucket5.take 2).map (toImageInfo cfgW)
    ∧ ((listImages cfgW bucket5 "" 2 0).1).length = 2 := by
  have h1 : ∀ (config : R2Config) (bucket : List S3Object) (l : Nat),
      (listImages config bucket "" l 0).1
        = (bucket.take (min l 1000)).map (toImageInfo config) := by
    intro config bucket l
    rw [listImages_zero_offset]
    have hf : bucket.filter (fun o => strStartsWith o.key "") = bucket :=
      List.filter_eq_self.mpr (fun a _ => strStartsWith_empty a.key)
    rw [hf]
  exact ⟨h1, by decide, by decide⟩

/-- Claim C10: the quality option is never validated against 1 to 100:
any nonzero number n is handed to the encoder unchanged (500 included, per
the witness), while 0, NaN and an absent quality all become 80; the upload
handler builds the option with parseInt over the form field defaulted to
the string 80, so a missing field is 80, a numeric string passes through,
and a non-numeric string is NaN. -/
theorem quality_unvalidated :
    (∀ (b : List Nat) (m : String) (opts : UploadOptions)
        (enc : List Nat → Int → Option (List Nat)) (n : Int),
        strStartsWith m "image/" = true →
        opts.compressToWebp = true →
        opts.quality = some (some n) →
        n ≠ 0 →
        processImage enc b m opts
          = match enc b n with
            | some w => ⟨w, "image/webp", "webp"⟩
            | none => ⟨b, m, jsOrStr (mimeExtension m) "bin"⟩)
    ∧ (∀ (b : List Nat) (m : String) (opts : UploadOptions)
        (enc : List Nat → Int → Option (List Nat)),
        strStartsWith m "image/" = true →
        opts.compressToWebp = true →
        (opts.quality = none ∨ opts.quality = some none
          ∨ opts.quality = some (some 0)) →
        processImage enc b m opts
          = match enc b 80 with
            | some w => ⟨w, "image/webp", "webp"⟩
            | none => ⟨b, m, jsOrStr (mimeExtension m) "bin"⟩)
    ∧ (uploadOptionsOf ⟨none, none, none, none, none⟩).quality = some (some 80)
    ∧ (uploadOptionsOf ⟨none, none, none, none, some "500"⟩).quality
        = some (some 500)
    ∧ (uploadOptionsOf ⟨none, none, none, none, some "abc"⟩).quality
        = some none := by
  refine ⟨?_, ?_, by decide, by decide, by decide⟩
  · intro b m opts enc n hm hc hq hn
    obtain ⟨u, cw, q⟩ := opts
    simp at hc hq
    subst hc
    subst hq
    have : jsOrQuality (some (some n)) = n := by simp [jsOrQuality, hn]
    cases henc : enc b n <;> simp [processImage, hm, this, henc]
  · intro b m opts enc hm hc hq
    obtain ⟨u, cw, q⟩ := opts
    simp at hc
    subst hc
    have : jsOrQuality q = 80 := by
      rcases hq with h | h | h <;> simp at h <;> simp [h, jsOrQuality]
    cases henc : enc b 80 <;> simp [processImage, hm, this, henc]

/-- Witness for claim C10: quality 500 reaches the encoder unchanged, and
quality 0 reaches it as 80. -/
theorem quality_unvalidated_witness :
    processImage (fun _ _ => some [2]) [1] "image/png" ⟨false, true, some (some 500)⟩
      = ⟨[2], "image/webp", "webp"⟩
    ∧ processImage (fun _ q => if q = 80 then some [3] else none) [1] "image/png"
        ⟨false, true, some (some 0)⟩
      = ⟨[3], "image/webp", "webp"⟩ := by
  constructor
  · have h := quality_unvalidated.1 [1] "image/png" ⟨false, true, some (some 500)⟩
      (fun _ _ => some [2]) 500 (by decide) rfl rfl (by decide)
    exact h
  · have h := quality_unvalidated.2.1 [1] "image/png" ⟨false, true, some (some 0)⟩
      (fun _ q => if q = 80 then some [3] else none) (by decide) rfl
      (Or.inr (Or.inr rfl))
    simpa using h

end AstroR2
